import Mathlib

/-!
Verification of the m2sim2 calibration and accuracy-reporting utilities.

Shallow embedding of the statistical core of the repository:
Python floats are modelled as exact rationals, fallible functions return
`Except` or `Option`/`WithTop`, and external collaborators (subprocess
invocations, numpy log, scipy linregress) are modelled as explicit function
parameters supplying their observed results.
-/

/- ---------------------------------------------------------------------
Robust statistics: `trimmed_mean`
(src/benchmarks/native/linear_calibration.py, def trimmed_mean).
The Python slice `sorted_vals[trim_count:-trim_count]` (with trim_count ≥ 1)
is `(drop trim_count).take (n - 2 * trim_count)`; Python `int(...)` truncates
toward zero, which on the non-negative products occurring here is the floor.
--------------------------------------------------------------------- -/

/-- Embedding of `trimmed_mean(values, trim_percent)`: remove the top and
bottom `int(n * trim_percent)` values after sorting, falling back to the
plain mean for fewer than 3 values, a zero trim count, or an empty
remainder. -/
def trimmed_mean (values : List ℚ) (trim_percent : ℚ) : ℚ :=
  if values.length < 3 then values.sum / values.length
  else
    let sorted_vals := List.insertionSort (· ≤ ·) values
    let n := values.length
    let trim_count := (⌊(n : ℚ) * trim_percent⌋).toNat
    if trim_count = 0 then sorted_vals.sum / n
    else
      let trimmed := (sorted_vals.drop trim_count).take (n - 2 * trim_count)
      if trimmed ≠ [] then trimmed.sum / trimmed.length
      else sorted_vals.sum / n

/-- Division that records a Python `ZeroDivisionError` as `none`. -/
def safeDiv (a b : ℚ) : Option ℚ :=
  if b = 0 then none else some (a / b)

/-- The same control flow as `trimmed_mean`, with every division the Python
code performs routed through `safeDiv`, so `none` marks exactly the inputs
on which the Python function would raise `ZeroDivisionError`. -/
def trimmed_meanChecked (values : List ℚ) (trim_percent : ℚ) : Option ℚ :=
  if values.length < 3 then safeDiv values.sum values.length
  else
    let sorted_vals := List.insertionSort (· ≤ ·) values
    let n := values.length
    let trim_count := (⌊(n : ℚ) * trim_percent⌋).toNat
    if trim_count = 0 then safeDiv sorted_vals.sum n
    else
      let trimmed := (sorted_vals.drop trim_count).take (n - 2 * trim_count)
      if trimmed ≠ [] then safeDiv trimmed.sum trimmed.length
      else safeDiv sorted_vals.sum n

/- ---------------------------------------------------------------------
Linear calibration fitter: `simple_linear_regression`
(src/benchmarks/native/linear_calibration.py).
--------------------------------------------------------------------- -/

/-- Embedding of `simple_linear_regression(x, y)`; returns
`(slope, intercept, r_squared)`.  The source also computes `sum_y2`,
which it never uses; it is omitted here. -/
def simple_linear_regression (x y : List ℚ) : ℚ × ℚ × ℚ :=
  let n : ℚ := x.length
  let sum_x := x.sum
  let sum_y := y.sum
  let sum_xy := ((x.zip y).map fun p => p.1 * p.2).sum
  let sum_x2 := (x.map fun xi => xi * xi).sum
  let slope := (n * sum_xy - sum_x * sum_y) / (n * sum_x2 - sum_x * sum_x)
  let intercept := (sum_y - slope * sum_x) / n
  let ss_tot := (y.map fun yi => (yi - sum_y / n) ^ 2).sum
  let ss_res := ((x.zip y).map fun p => (p.2 - (slope * p.1 + intercept)) ^ 2).sum
  let r_squared := if 0 < ss_tot then 1 - ss_res / ss_tot else 0
  (slope, intercept, r_squared)

/- ---------------------------------------------------------------------
Accuracy error metric: `calculate_error` (src/h5_accuracy_report.py).
The Python sentinel `float('inf')` is modelled as `⊤` in `WithTop ℚ`.
--------------------------------------------------------------------- -/

/-- Embedding of `calculate_error(t_sim, t_real)`:
`abs(t_sim - t_real) / min(t_sim, t_real)`, with the infinite sentinel
returned when the minimum is zero. -/
def calculate_error (t_sim t_real : ℚ) : WithTop ℚ :=
  if min t_sim t_real = 0 then ⊤
  else (↑(|t_sim - t_real| / min t_sim t_real) : WithTop ℚ)

/- ---------------------------------------------------------------------
H5 aggregation and gate (src/calculate_h5_accuracy.py).
--------------------------------------------------------------------- -/

/-- Embedding of the combined-average computation in
`calculate_h5_accuracy`: category means weighted by benchmark count. -/
def combined_avg_error (micro_error : ℚ) (micro_count : ℕ)
    (poly_error : ℚ) (poly_count : ℕ) : ℚ :=
  let total_benchmarks := micro_count + poly_count
  let micro_weight : ℚ := micro_count / total_benchmarks
  let poly_weight : ℚ := poly_count / total_benchmarks
  micro_error * micro_weight + poly_error * poly_weight

/-- Embedding of `benchmark_target_met = total_benchmarks >= 15`. -/
def benchmark_target_met (total_benchmarks : ℕ) : Bool :=
  15 ≤ total_benchmarks

/-- Embedding of `accuracy_target_met = combined_avg_error < 0.20`. -/
def accuracy_target_met (combined_error : ℚ) : Bool :=
  combined_error < 20 / 100

/-- Embedding of `h5_complete = benchmark_target_met and accuracy_target_met`. -/
def h5_complete (total_benchmarks : ℕ) (combined_error : ℚ) : Bool :=
  benchmark_target_met total_benchmarks && accuracy_target_met combined_error

/-- Embedding of the `__main__` block: `exit(0 if success else 1)` where
`success = calculate_h5_accuracy()` returns `h5_complete`. -/
def h5_exit_code (total_benchmarks : ℕ) (combined_error : ℚ) : ℕ :=
  if h5_complete total_benchmarks combined_error then 0 else 1

/- ---------------------------------------------------------------------
Benchmark generator (src/benchmarks/native/linear_calibration.py,
`load_iterations_asm` and `generate_benchmark`).
The Python `n & 0xFFFF` and `(n >> 16) & 0xFFFF` are written as
`n % 2 ^ 16` and `n / 2 ^ 16 % 2 ^ 16`, equal on naturals.
--------------------------------------------------------------------- -/

/-- Embedding of `load_iterations_asm(n, reg)`: the `ValueError` raised for
counts above `2^32 - 1` becomes the `.error` branch. -/
def load_iterations_asm (n : ℕ) (reg : String) : Except String String :=
  if n ≤ 0xFFFF then
    .ok ("    movz " ++ reg ++ ", #" ++ toString n)
  else if n ≤ 0xFFFFFFFF then
    let low := n % 2 ^ 16
    let high := n / 2 ^ 16 % 2 ^ 16
    let lines := ["    movz " ++ reg ++ ", #" ++ toString low] ++
      (if 0 < high then ["    movk " ++ reg ++ ", #" ++ toString high ++ ", lsl #16"]
       else [])
    .ok (String.intercalate "\x0a" lines)
  else
    .error ("Iteration count " ++ toString n ++ " too large (max 2^32-1)")

/-- One entry of `BENCHMARK_TEMPLATES`.  The template text itself is
out-of-scope data per the spec; an entry is represented by its
`.format(iterations, load_iterations, load_iterations_x21)` application. -/
structure BenchmarkTemplate where
  description : String
  instructions_per_iter : ℕ
  template : ℕ → String → String → String

/-- Embedding of `generate_benchmark(template_name, iterations)` applied to
a resolved template: the two `load_iterations_asm` calls are evaluated
first (register `x11`, then `x21`) and a `ValueError` from either aborts
before the template is formatted. -/
def generate_benchmark (tmpl : BenchmarkTemplate) (iterations : ℕ) :
    Except String String :=
  match load_iterations_asm iterations "x11", load_iterations_asm iterations "x21" with
  | .ok li, .ok li21 => .ok (tmpl.template iterations li li21)
  | .error e, _ => .error e
  | .ok _, .error e => .error e

/-- A concrete template for evaluating the generator on closed inputs; its
body just splices the generated pieces, standing in for the out-of-scope
assembly text. -/
def sampleTemplate : BenchmarkTemplate where
  description := "sample loop benchmark"
  instructions_per_iter := 4
  template := fun iterations li li21 =>
    li ++ "\x0a" ++ li21 ++ "\x0a" ++ toString iterations

/- ---------------------------------------------------------------------
Sample collector (src/benchmarks/native/measure_memory_benchmarks.py,
`run_benchmark`).  The child process is external: invocation `i` of the
executable (0-based, warmups first) is modelled as `invoke i`, giving the
observed exit status and the wall-clock duration measured around it.
--------------------------------------------------------------------- -/

/-- Observed outcome of one invocation of the benchmark executable. -/
structure InvocationResult where
  returncode : ℤ
  elapsed_sec : ℚ

/-- The timed measurement loop of `run_benchmark`: starting at invocation
index `idx`, perform `count` timed runs, checking each exit status against
`expected_exit_code` before recording its duration, and fail with the
`RuntimeError` message on the first mismatch. -/
def timed_runs (invoke : ℕ → InvocationResult) (executable : String)
    (expected_exit_code : ℤ) : ℕ → ℕ → Except String (List ℚ)
  | _, 0 => .ok []
  | idx, count + 1 =>
    let r := invoke idx
    if r.returncode ≠ expected_exit_code then
      .error (executable ++ " exited with " ++ toString r.returncode ++
        ", expected " ++ toString expected_exit_code)
    else
      match timed_runs invoke executable expected_exit_code (idx + 1) count with
      | .ok times => .ok (r.elapsed_sec :: times)
      | .error e => .error e

/-- Embedding of `run_benchmark(executable, expected_exit_code, runs, warmup)`:
invocations `0 .. warmup-1` are warmup runs whose statuses and timings are
discarded, then `runs` timed runs consume invocations
`warmup .. warmup+runs-1` in order. -/
def run_benchmark (invoke : ℕ → InvocationResult) (executable : String)
    (expected_exit_code : ℤ) (runs warmup : ℕ) : Except String (List ℚ) :=
  timed_runs invoke executable expected_exit_code warmup runs

/-- Invocation stream in which every run exits 0 and run `i` takes `i`
seconds. -/
def invokeAllOk : ℕ → InvocationResult := fun i => ⟨0, (i : ℚ)⟩

/-- Invocation stream whose warmup runs exit 0 but whose timed runs
(index 2 onward) exit 1. -/
def invokeBadExit : ℕ → InvocationResult :=
  fun i => ⟨if 2 ≤ i then 1 else 0, (i : ℚ)⟩

/- ---------------------------------------------------------------------
Scaling correlation analyzer
(src/scripts/incremental_testing_validation.py).
`np.log` and `scipy.stats.linregress` are external collaborators, passed
in as the functions `log` and `linregress`.
--------------------------------------------------------------------- -/

/-- Embedding of the dataclass `ScalingDataPoint`. -/
structure ScalingDataPoint where
  problem_size : ℕ
  problem_volume : ℕ
  instructions : ℕ
  cycles : ℕ
  cpi : ℚ
  wall_time_sec : ℚ
  simulation_time_sec : ℚ
  instructions_per_sec : ℚ
  hardware_baseline_ns_per_inst : Option ℚ
  simulation_ns_per_inst : Option ℚ
  accuracy_error_percent : Option ℚ

/-- The quintuple returned by `scipy.stats.linregress`. -/
structure LinregressResult where
  slope : ℚ
  intercept : ℚ
  r_value : ℚ
  p_value : ℚ
  std_err : ℚ

/-- Embedding of the dataclass `ScalingAnalysis`. -/
structure ScalingAnalysis where
  benchmark : String
  scaling_points : List ScalingDataPoint
  correlation_coefficient : ℚ
  slope : ℚ
  intercept : ℚ
  p_value : ℚ
  confidence_interval : ℚ × ℚ
  scaling_factor : ℚ
  velocity_improvement : ℚ

/-- Embedding of `analyze_scaling_correlation(benchmark, scaling_points)`:
fewer than 3 points raise the `ValueError` (the `.error` branch); otherwise
the points are sorted by problem size, a regression of CPI against the log
of problem volume is delegated to `linregress`, and the derived metrics are
computed exactly as in the source (`1.96` confidence band, cubic-normalized
scaling factor over the extreme points, velocity from the first point at or
below size 128 versus the first at or above 512). -/
def analyze_scaling_correlation (log : ℚ → ℚ)
    (linregress : List (ℚ × ℚ) → LinregressResult)
    (benchmark : String) (scaling_points : List ScalingDataPoint) :
    Except String ScalingAnalysis :=
  if scaling_points.length < 3 then
    .error ("Need at least 3 data points for correlation analysis, got " ++
      toString scaling_points.length)
  else
    let pts := List.insertionSort
      (fun a b => a.problem_size ≤ b.problem_size) scaling_points
    let log_volumes := pts.map fun p => log (p.problem_volume : ℚ)
    let cpis := pts.map fun p => p.cpi
    let lr := linregress (log_volumes.zip cpis)
    let r_squared := lr.r_value ^ 2
    let confidence_interval :=
      (lr.slope - 196 / 100 * lr.std_err, lr.slope + 196 / 100 * lr.std_err)
    let scaling_factor :=
      if 2 ≤ pts.length then
        match pts.getLast?, pts.head? with
        | some lastPt, some firstPt =>
          let size_ratio : ℚ := (lastPt.problem_size : ℚ) / (firstPt.problem_size : ℚ)
          let time_ratio := lastPt.simulation_time_sec / firstPt.simulation_time_sec
          time_ratio / size_ratio ^ 3
        | _, _ => 1
      else 1
    let small_time :=
      match pts.find? (fun p => p.problem_size ≤ 128) with
      | some p => p.simulation_time_sec
      | none => 1
    let large_time :=
      match pts.find? (fun p => 512 ≤ p.problem_size) with
      | some p => p.simulation_time_sec
      | none => small_time * 10
    let velocity_improvement := if 0 < small_time then large_time / small_time else 1
    .ok { benchmark := benchmark
          scaling_points := pts
          correlation_coefficient := r_squared
          slope := lr.slope
          intercept := lr.intercept
          p_value := lr.p_value
          confidence_interval := confidence_interval
          scaling_factor := scaling_factor
          velocity_improvement := velocity_improvement }

/-- A concrete scaling data point used for closed evaluations. -/
def samplePoint (size : ℕ) : ScalingDataPoint where
  problem_size := size
  problem_volume := size ^ 3
  instructions := 1000 * size
  cycles := 500 * size
  cpi := 1 / 2
  wall_time_sec := size
  simulation_time_sec := size
  instructions_per_sec := 1000
  hardware_baseline_ns_per_inst := none
  simulation_ns_per_inst := none
  accuracy_error_percent := none

/- ---------------------------------------------------------------------
Helper lemmas.
--------------------------------------------------------------------- -/

/-- If `n ≤ 2^32 - 1` then `load_iterations_asm` succeeds. -/
lemma load_iterations_asm_ok (n : ℕ) (reg : String) (h : n ≤ 2 ^ 32 - 1) :
    ∃ s, load_iterations_asm n reg = .ok s := by
  by_cases h1 : n ≤ 0xFFFF
  · simp only [load_iterations_asm]
    rw [if_pos h1]
    exact ⟨_, rfl⟩
  · have h2 : n ≤ 0xFFFFFFFF := by omega
    simp only [load_iterations_asm]
    rw [if_neg h1, if_pos h2]
    exact ⟨_, rfl⟩

/-- When every invocation from `idx` on exits as expected, the timed loop
returns the durations of invocations `idx .. idx+count-1` in order. -/
lemma timed_runs_all_ok (invoke : ℕ → InvocationResult) (executable : String)
    (expected : ℤ) :
    ∀ (count idx : ℕ), (∀ i < count, (invoke (idx + i)).returncode = expected) →
      timed_runs invoke executable expected idx count =
        .ok ((List.range' idx count).map fun j => (invoke j).elapsed_sec) := by
  intro count
  induction count with
  | zero => intro idx _; simp [timed_runs]
  | succ k ih =>
    intro idx h
    have h0 : (invoke idx).returncode = expected := by
      simpa using h 0 (Nat.succ_pos k)
    have hrec := ih (idx + 1) (fun i hi => by
      have hx := h (i + 1) (by omega)
      simpa [show idx + (i + 1) = idx + 1 + i by omega] using hx)
    simp [timed_runs, h0, hrec, List.range'_succ]

/-- The first timed run whose exit status differs from the expected one
aborts the loop with the `RuntimeError` message. -/
lemma timed_runs_first_bad (invoke : ℕ → InvocationResult) (executable : String)
    (expected : ℤ) :
    ∀ (count idx j : ℕ), j < count →
      (∀ i < j, (invoke (idx + i)).returncode = expected) →
      (invoke (idx + j)).returncode ≠ expected →
      timed_runs invoke executable expected idx count =
        .error (executable ++ " exited with " ++ toString (invoke (idx + j)).returncode ++
          ", expected " ++ toString expected) := by
  intro count
  induction count with
  | zero => intro idx j hj _ _; exact absurd hj (Nat.not_lt_zero j)
  | succ k ih =>
    intro idx j hj hok hbad
    cases j with
    | zero =>
      have h0 : (invoke (idx + 0)).returncode ≠ expected := hbad
      rw [Nat.add_zero] at h0
      simp [timed_runs, h0]
    | succ m =>
      rw [show idx + (m + 1) = idx + 1 + m by omega] at hbad ⊢
      have h0 : (invoke idx).returncode = expected := by
        simpa using hok 0 (Nat.succ_pos m)
      have hrec := ih (idx + 1) m (by omega)
        (fun i hi => by
          have hx := hok (i + 1) (by omega)
          simpa [show idx + (i + 1) = idx + 1 + i by omega] using hx)
        hbad
      simp [timed_runs, h0, hrec]

/-- A successful timed loop returns exactly `count` durations. -/
lemma timed_runs_ok_length (invoke : ℕ → InvocationResult) (executable : String)
    (expected : ℤ) :
    ∀ (count idx : ℕ) (l : List ℚ),
      timed_runs invoke executable expected idx count = .ok l → l.length = count := by
  intro count
  induction count with
  | zero =>
    intro idx l h
    simp only [timed_runs] at h
    cases h
    rfl
  | succ k ih =>
    intro idx l h
    simp only [timed_runs] at h
    by_cases hb : (invoke idx).returncode ≠ expected
    · rw [if_pos hb] at h
      cases h
    · rw [if_neg hb] at h
      cases hrec : timed_runs invoke executable expected (idx + 1) k with
      | ok times =>
        rw [hrec] at h
        cases h
        simpa using ih (idx + 1) times hrec
      | error e =>
        rw [hrec] at h
        cases h

/- ---------------------------------------------------------------------
Claim theorems.
--------------------------------------------------------------------- -/

/-- C3: `compare(hw_latency, sim_latency)` returns
`|sim - hw| / min(sim, hw)` whenever the minimum is nonzero, and when the
minimum is zero it returns the sentinel infinite error value (never a
finite result). -/
theorem calculate_error_guard (t_sim t_real : ℚ) :
    (min t_sim t_real ≠ 0 →
      calculate_error t_sim t_real =
        ((|t_sim - t_real| / min t_sim t_real : ℚ) : WithTop ℚ))
    ∧ (min t_sim t_real = 0 →
      calculate_error t_sim t_real = ⊤ ∧
        ∀ q : ℚ, calculate_error t_sim t_real ≠ (q : WithTop ℚ)) := by
  constructor
  · intro h
    simp [calculate_error, h]
  · intro h
    refine ⟨by simp [calculate_error, h], fun q => by simp [calculate_error, h]⟩

/-- Witness for C3 at concrete inputs: a nonzero minimum gives the finite
relative error, a zero latency gives the infinite sentinel. -/
theorem calculate_error_guard_witness :
    calculate_error 3 2 = ((1 / 2 : ℚ) : WithTop ℚ) ∧ calculate_error 0 5 = ⊤ := by
  constructor
  · have h := (calculate_error_guard 3 2).1 (by norm_num)
    have hv : |(3 : ℚ) - 2| / min (3 : ℚ) 2 = 1 / 2 := by norm_num
    rw [h, hv]
  · exact ((calculate_error_guard 0 5).2 (by norm_num)).1

/-- C4: for positive latencies the relative-error metric is symmetric under
swapping the two arguments, and both orders of `(2.0, 2.5)` give `0.25`. -/
theorem calculate_error_symmetric (a b : ℚ) (ha : 0 < a) (hb : 0 < b) :
    calculate_error a b = calculate_error b a
    ∧ calculate_error (5 / 2) 2 = ((1 / 4 : ℚ) : WithTop ℚ)
    ∧ calculate_error 2 (5 / 2) = ((1 / 4 : ℚ) : WithTop ℚ) := by
  refine ⟨?_, ?_, ?_⟩
  · unfold calculate_error
    rw [min_comm b a, abs_sub_comm b a]
  · have habs : |(1 : ℚ) / 2| = 1 / 2 := abs_of_nonneg (by norm_num)
    norm_num [calculate_error, min_def, habs]
  · have habs : |(1 : ℚ) / 2| = 1 / 2 := abs_of_nonneg (by norm_num)
    norm_num [calculate_error, min_def, habs]

/-- Witness for C4: the symmetry instance at the documented pair. -/
theorem calculate_error_symmetric_witness :
    calculate_error 2 (5 / 2) = calculate_error (5 / 2) 2 :=
  (calculate_error_symmetric 2 (5 / 2) (by norm_num) (by norm_num)).1

/-- C5: combining two category averages weights them by benchmark count,
`(e1*n1 + e2*n2)/(n1+n2)`; the documented instance gives `571/4500 ≈ 0.1269`,
which differs from the unweighted average `0.122`. -/
theorem combined_avg_error_spec (e1 e2 : ℚ) (n1 n2 : ℕ) (h : n1 + n2 ≠ 0) :
    combined_avg_error e1 n1 e2 n2 = (e1 * n1 + e2 * n2) / (n1 + n2)
    ∧ combined_avg_error (144 / 1000) 11 (1 / 10) 7 = 571 / 4500
    ∧ ((571 : ℚ) / 4500) ≠ (144 / 1000 + 1 / 10) / 2 := by
  refine ⟨?_, by norm_num [combined_avg_error], by norm_num⟩
  have h0 : ((n1 : ℚ) + n2) ≠ 0 := by
    have hx : ((n1 + n2 : ℕ) : ℚ) ≠ 0 := Nat.cast_ne_zero.mpr h
    push_cast at hx
    exact hx
  unfold combined_avg_error
  push_cast
  field_simp

/-- Witness for C5 at the documented category sizes. -/
theorem combined_avg_error_spec_witness :
    combined_avg_error (144 / 1000) 11 (1 / 10) 7 =
      ((144 / 1000) * (11 : ℕ) + (1 / 10) * (7 : ℕ)) / (((11 : ℕ) : ℚ) + (7 : ℕ)) := by
  have h := (combined_avg_error_spec (144 / 1000) (1 / 10) 11 7 (by norm_num)).1
  exact_mod_cast h

/-- C6: the H5 gate passes exactly when the aggregate error is strictly
below `0.20` and at least 15 benchmarks were counted; the process exit code
is `0` exactly on a pass and `1` otherwise; `0.18` with 15 benchmarks
passes while `0.21` fails. -/
theorem h5_gate_spec (total : ℕ) (err : ℚ) :
    (h5_complete total err = true ↔ (err < 20 / 100 ∧ 15 ≤ total))
    ∧ (h5_exit_code total err = 0 ↔ h5_complete total err = true)
    ∧ (h5_exit_code total err = 1 ↔ h5_complete total err = false)
    ∧ h5_complete 15 (18 / 100) = true
    ∧ h5_complete 15 (21 / 100) = false := by
  refine ⟨?_, ?_, ?_, ?_, ?_⟩
  · simp [h5_complete, benchmark_target_met, accuracy_target_met, and_comm]
  · by_cases hc : h5_complete total err <;> simp [h5_exit_code, hc]
  · by_cases hc : h5_complete total err <;> simp [h5_exit_code, hc]
  · have h1 : (18 : ℚ) / 100 < 20 / 100 := by norm_num
    simp [h5_complete, benchmark_target_met, accuracy_target_met, h1]
  · have h1 : ¬ ((21 : ℚ) / 100 < 20 / 100) := by norm_num
    simp [h5_complete, benchmark_target_met, accuracy_target_met, h1]

/-- Witness for C6: the gate instances from the spec, via the theorem. -/
theorem h5_gate_spec_witness :
    h5_complete 15 (18 / 100) = true ∧ h5_exit_code 15 (21 / 100) = 1 :=
  ⟨(h5_gate_spec 15 (18 / 100)).2.2.2.1,
   ((h5_gate_spec 15 (21 / 100)).2.2.1).mpr (h5_gate_spec 15 (21 / 100)).2.2.2.2⟩

/-- C7: iteration counts above `2^32 - 1` make the generator fail with the
`IterationCountTooLarge` error, while every count up to `2^32 - 1` is
accepted and produces source text. -/
theorem generate_benchmark_bounds (tmpl : BenchmarkTemplate) (n : ℕ) :
    (2 ^ 32 - 1 < n →
      generate_benchmark tmpl n =
        .error ("Iteration count " ++ toString n ++ " too large (max 2^32-1)"))
    ∧ (n ≤ 2 ^ 32 - 1 → ∃ src, generate_benchmark tmpl n = .ok src) := by
  constructor
  · intro h
    have h1 : ¬ n ≤ 0xFFFF := by omega
    have h2 : ¬ n ≤ 0xFFFFFFFF := by omega
    simp [generate_benchmark, load_iterations_asm, h1, h2]
  · intro h
    obtain ⟨s1, hs1⟩ := load_iterations_asm_ok n "x11" h
    obtain ⟨s2, hs2⟩ := load_iterations_asm_ok n "x21" h
    simp only [generate_benchmark, hs1, hs2]
    exact ⟨_, rfl⟩

/-- Witness for C7: `2^32` is rejected, `5` is accepted. -/
theorem generate_benchmark_bounds_witness :
    (∃ e, generate_benchmark sampleTemplate (2 ^ 32) = .error e)
    ∧ (∃ src, generate_benchmark sampleTemplate 5 = .ok src) :=
  ⟨⟨_, (generate_benchmark_bounds sampleTemplate (2 ^ 32)).1 (by norm_num)⟩,
   (generate_benchmark_bounds sampleTemplate 5).2 (by norm_num)⟩

/-- C8: the collector performs `warmup` discarded invocations followed by
`runs` timed invocations, returning exactly the `runs` durations in
execution order when every timed run exits with the expected status, and
failing on the first timed run whose exit status differs. -/
theorem run_benchmark_spec (invoke : ℕ → InvocationResult) (executable : String)
    (expected : ℤ) (runs warmup : ℕ) :
    ((∀ i < runs, (invoke (warmup + i)).returncode = expected) →
      run_benchmark invoke executable expected runs warmup =
        .ok ((List.range runs).map fun i => (invoke (warmup + i)).elapsed_sec))
    ∧ (∀ j < runs, (∀ i < j, (invoke (warmup + i)).returncode = expected) →
        (invoke (warmup + j)).returncode ≠ expected →
        run_benchmark invoke executable expected runs warmup =
          .error (executable ++ " exited with " ++
            toString (invoke (warmup + j)).returncode ++
            ", expected " ++ toString expected))
    ∧ (∀ l, run_benchmark invoke executable expected runs warmup = .ok l →
        l.length = runs) := by
  refine ⟨?_, ?_, ?_⟩
  · intro h
    have hh := timed_runs_all_ok invoke executable expected runs warmup h
    rw [run_benchmark, hh, List.range'_eq_map_range, List.map_map]
    rfl
  · intro j hj hok hbad
    exact timed_runs_first_bad invoke executable expected runs warmup j hj hok hbad
  · intro l hl
    exact timed_runs_ok_length invoke executable expected runs warmup l hl

/-- Witness for C8: a clean stream yields the two timed durations after two
warmups; a stream whose timed runs exit `1` instead of `0` fails. -/
theorem run_benchmark_spec_witness :
    run_benchmark invokeAllOk "bench" 0 2 2 =
      .ok ((List.range 2).map fun i => (invokeAllOk (2 + i)).elapsed_sec)
    ∧ run_benchmark invokeBadExit "bench" 0 2 2 =
      .error ("bench" ++ " exited with " ++ toString (invokeBadExit (2 + 0)).returncode ++
        ", expected " ++ toString (0 : ℤ)) := by
  constructor
  · exact (run_benchmark_spec invokeAllOk "bench" 0 2 2).1
      (fun i _ => by simp [invokeAllOk])
  · exact (run_benchmark_spec invokeBadExit "bench" 0 2 2).2.1 0 (by norm_num)
      (fun i hi => absurd hi (Nat.not_lt_zero i))
      (by simp [invokeBadExit])

/-- C9: the scaling analyzer demands at least 3 data points, failing with
the `InsufficientData` error for fewer, and returning a `ScalingAnalysis`
for 3 or more. -/
theorem analyze_scaling_correlation_spec (log : ℚ → ℚ)
    (linregress : List (ℚ × ℚ) → LinregressResult) (benchmark : String)
    (pts : List ScalingDataPoint) :
    (pts.length < 3 →
      analyze_scaling_correlation log linregress benchmark pts =
        .error ("Need at least 3 data points for correlation analysis, got " ++
          toString pts.length))
    ∧ (3 ≤ pts.length →
      ∃ a : ScalingAnalysis,
        analyze_scaling_correlation log linregress benchmark pts = .ok a) := by
  constructor
  · intro h
    simp only [analyze_scaling_correlation]
    rw [if_pos h]
  · intro h
    simp only [analyze_scaling_correlation]
    rw [if_neg (by omega)]
    exact ⟨_, rfl⟩

/-- Witness for C9: the empty scan fails, three scales `64,128,256`
produce an analysis. -/
theorem analyze_scaling_correlation_spec_witness :
    (analyze_scaling_correlation (fun _ => 0) (fun _ => ⟨0, 0, 0, 0, 0⟩) "atax" [] =
      .error ("Need at least 3 data points for correlation analysis, got " ++
        toString (List.length ([] : List ScalingDataPoint))))
    ∧ ∃ a, analyze_scaling_correlation (fun _ => 0) (fun _ => ⟨0, 0, 0, 0, 0⟩) "atax"
        [samplePoint 64, samplePoint 128, samplePoint 256] = .ok a :=
  ⟨(analyze_scaling_correlation_spec _ _ _ _).1 (by simp),
   (analyze_scaling_correlation_spec _ _ _ _).2 (by simp)⟩

/- ---------------------------------------------------------------------
Claims about `trimmed_mean` and `simple_linear_regression`.
--------------------------------------------------------------------- -/

/-- Expansion of a sum of shifted squares over a list. -/
lemma sum_sq_shift (a : ℚ) (t : List ℚ) :
    (t.map fun b => (a - b) ^ 2).sum =
      (t.length : ℚ) * a ^ 2 - 2 * a * t.sum + (t.map fun u => u * u).sum := by
  induction t with
  | nil => simp
  | cons c t ih =>
    simp only [List.map_cons, List.sum_cons, List.length_cons, ih]
    push_cast
    ring

/-- Recursion for the regression denominator `n·Σx² − (Σx)²`. -/
lemma quadSum_cons (a : ℚ) (t : List ℚ) :
    ((a :: t).length : ℚ) * ((a :: t).map fun u => u * u).sum -
        (a :: t).sum * (a :: t).sum =
      ((t.length : ℚ) * (t.map fun u => u * u).sum - t.sum * t.sum) +
        (t.map fun b => (a - b) ^ 2).sum := by
  simp only [List.map_cons, List.sum_cons, List.length_cons, sum_sq_shift]
  push_cast
  ring

/-- The regression denominator is never negative. -/
lemma quadSum_nonneg (x : List ℚ) :
    0 ≤ (x.length : ℚ) * (x.map fun u => u * u).sum - x.sum * x.sum := by
  induction x with
  | nil => simp
  | cons a t ih =>
    rw [quadSum_cons]
    have hS : 0 ≤ (t.map fun b => (a - b) ^ 2).sum :=
      List.sum_nonneg fun y hy => by
        obtain ⟨b, _, rfl⟩ := List.mem_map.mp hy
        exact sq_nonneg _
    linarith

/-- With two distinct entries, the regression denominator is strictly
positive: the OLS division is well defined. -/
lemma quadSum_pos (x : List ℚ) (hx : ∃ a ∈ x, ∃ b ∈ x, a ≠ b) :
    0 < (x.length : ℚ) * (x.map fun u => u * u).sum - x.sum * x.sum := by
  cases x with
  | nil =>
    obtain ⟨a, ha, _⟩ := hx
    exact absurd ha (List.not_mem_nil a)
  | cons a t =>
    rw [quadSum_cons]
    by_cases hall : ∀ b ∈ t, b = a
    · exfalso
      obtain ⟨u, hu, v, hv, huv⟩ := hx
      have hu2 : u = a := by
        rcases List.mem_cons.mp hu with h | h
        · exact h
        · exact hall u h
      have hv2 : v = a := by
        rcases List.mem_cons.mp hv with h | h
        · exact h
        · exact hall v h
      exact huv (hu2.trans hv2.symm)
    · push_neg at hall
      obtain ⟨b, hb, hba⟩ := hall
      have hterm : 0 < (a - b) ^ 2 := by
        have hz : (a - b) ^ 2 ≠ 0 := pow_ne_zero 2 (sub_ne_zero.mpr (Ne.symm hba))
        exact lt_of_le_of_ne (sq_nonneg _) (Ne.symm hz)
      have hle : (a - b) ^ 2 ≤ (t.map fun c => (a - c) ^ 2).sum :=
        List.single_le_sum
          (fun y hy => by
            obtain ⟨c, _, rfl⟩ := List.mem_map.mp hy
            exact sq_nonneg _)
          _ (List.mem_map_of_mem _ hb)
      have hq := quadSum_nonneg t
      linarith

/-- C1: `trimmed_mean` sorts ascending, removes `floor(n·tf)` values from
each end and averages the remainder; below 3 values, or at a zero trim
count, it returns the plain mean; the spec instances give `3.5` and `5.0`. -/
theorem trimmed_mean_spec :
    (∀ (values : List ℚ) (tf : ℚ), values ≠ [] → values.length < 3 →
        trimmed_mean values tf = values.sum / values.length)
    ∧ (∀ (values : List ℚ) (tf : ℚ) (s : List ℚ), 3 ≤ values.length → 0 ≤ tf →
        values.Perm s → s.Sorted (· ≤ ·) →
        (((⌊(values.length : ℚ) * tf⌋).toNat = 0 →
            trimmed_mean values tf = values.sum / values.length)
          ∧ ∀ c, c = (⌊(values.length : ℚ) * tf⌋).toNat → 0 < c →
              (s.drop c).take (values.length - 2 * c) ≠ [] →
              trimmed_mean values tf =
                ((s.drop c).take (values.length - 2 * c)).sum /
                  (((s.drop c).take (values.length - 2 * c)).length : ℚ)))
    ∧ trimmed_mean [1, 2, 3, 4, 5, 100] (2 / 10) = 7 / 2
    ∧ trimmed_mean [5, 5] (2 / 10) = 5 := by
  refine ⟨?_, ?_, ?_, ?_⟩
  · intro values tf _ h
    unfold trimmed_mean
    rw [if_pos h]
  · intro values tf s h3 htf hperm hsort
    have hs : List.insertionSort (· ≤ ·) values = s :=
      List.eq_of_perm_of_sorted ((List.perm_insertionSort _ values).trans hperm)
        (List.sorted_insertionSort _ values) hsort
    constructor
    · intro hc
      simp only [trimmed_mean]
      rw [if_neg (by omega), hs, if_pos hc, ← List.Perm.sum_eq hperm]
    · intro c hceq hcpos hne
      simp only [trimmed_mean]
      rw [if_neg (by omega), hs, ← hceq, if_neg (by omega), if_pos hne]
  · norm_num [trimmed_mean, List.insertionSort, List.orderedInsert]
    simp
  · norm_num [trimmed_mean]

/-- Witness for C1: the two documented evaluations, through the theorem. -/
theorem trimmed_mean_spec_witness :
    trimmed_mean [5, 5] (2 / 10) = 5
    ∧ trimmed_mean [1, 2, 3, 4, 5, 100] (2 / 10) = 7 / 2 := by
  constructor
  · have h := trimmed_mean_spec.1 [5, 5] (2 / 10) (by simp) (by simp)
    rw [h]
    norm_num
  · have h := (trimmed_mean_spec.2.1 [1, 2, 3, 4, 5, 100] (2 / 10) [1, 2, 3, 4, 5, 100]
      (by simp) (by norm_num) (List.Perm.refl _) (by decide)).2 1 (by norm_num)
      (by norm_num) (by simp)
    rw [h]
    norm_num

/-- C2: with at least two data points and non-identical x-values the OLS
denominator is strictly positive and `simple_linear_regression` returns
exactly the documented slope, intercept and r² formulas, with r² equal to 0
when the total sum of squares vanishes; the documented instance returns
`(0.01, 0, 1)`. -/
theorem simple_linear_regression_spec (x y : List ℚ)
    (hlen : y.length = x.length) (h2 : 2 ≤ x.length)
    (hx : ∃ a ∈ x, ∃ b ∈ x, a ≠ b) :
    0 < (x.length : ℚ) * (x.map fun xi => xi * xi).sum - x.sum * x.sum
    ∧ (simple_linear_regression x y).1 =
        ((x.length : ℚ) * ((x.zip y).map fun p => p.1 * p.2).sum - x.sum * y.sum) /
          ((x.length : ℚ) * (x.map fun xi => xi * xi).sum - x.sum * x.sum)
    ∧ (simple_linear_regression x y).2.1 =
        (y.sum - (simple_linear_regression x y).1 * x.sum) / (x.length : ℚ)
    ∧ ((y.map fun yi => (yi - y.sum / (x.length : ℚ)) ^ 2).sum = 0 →
        (simple_linear_regression x y).2.2 = 0)
    ∧ ((y.map fun yi => (yi - y.sum / (x.length : ℚ)) ^ 2).sum ≠ 0 →
        (simple_linear_regression x y).2.2 =
          1 - ((x.zip y).map fun p =>
                (p.2 - ((simple_linear_regression x y).1 * p.1 +
                  (simple_linear_regression x y).2.1)) ^ 2).sum /
              (y.map fun yi => (yi - y.sum / (x.length : ℚ)) ^ 2).sum)
    ∧ simple_linear_regression [1000, 2000, 4000] [10, 20, 40] = (1 / 100, 0, 1) := by
  have h22 : (simple_linear_regression x y).2.2 =
      if 0 < (y.map fun yi => (yi - y.sum / (x.length : ℚ)) ^ 2).sum then
        1 - ((x.zip y).map fun p =>
              (p.2 - ((simple_linear_regression x y).1 * p.1 +
                (simple_linear_regression x y).2.1)) ^ 2).sum /
            (y.map fun yi => (yi - y.sum / (x.length : ℚ)) ^ 2).sum
      else 0 := rfl
  refine ⟨quadSum_pos x hx, rfl, rfl, ?_, ?_, ?_⟩
  · intro h0
    rw [h22, if_neg (by rw [h0]; exact lt_irrefl 0)]
  · intro hne
    have hpos : 0 < (y.map fun yi => (yi - y.sum / (x.length : ℚ)) ^ 2).sum :=
      lt_of_le_of_ne
        (List.sum_nonneg fun t ht => by
          obtain ⟨yi, _, rfl⟩ := List.mem_map.mp ht
          exact sq_nonneg _)
        (Ne.symm hne)
    rw [h22, if_pos hpos]
  · norm_num [simple_linear_regression, Prod.ext_iff]

/-- Witness for C2: the perfectly linear instance from the spec. -/
theorem simple_linear_regression_spec_witness :
    simple_linear_regression [1000, 2000, 4000] [10, 20, 40] = (1 / 100, 0, 1) :=
  (simple_linear_regression_spec [1000, 2000, 4000] [10, 20, 40] (by simp) (by simp)
    ⟨1000, by simp, 2000, by simp, by norm_num⟩).2.2.2.2.2

/-- A nonzero denominator makes `safeDiv` succeed with the exact quotient. -/
lemma safeDiv_of_ne (a b : ℚ) (h : b ≠ 0) : safeDiv a b = some (a / b) := by
  unfold safeDiv
  rw [if_neg h]

/-- C10: on every non-empty input with a trim fraction in `[0,1]`,
`trimmed_mean` performs no division by zero (the checked variant returns
`some`), and when the trimmed remainder is empty it falls back to the mean
of the full sorted list, i.e. the mean of the input. -/
theorem trimmed_mean_total (values : List ℚ) (tf : ℚ) (hne : values ≠ [])
    (h0 : 0 ≤ tf) (h1 : tf ≤ 1) :
    trimmed_meanChecked values tf = some (trimmed_mean values tf)
    ∧ (3 ≤ values.length → 0 < (⌊(values.length : ℚ) * tf⌋).toNat →
        ((List.insertionSort (· ≤ ·) values).drop
            ((⌊(values.length : ℚ) * tf⌋).toNat)).take
          (values.length - 2 * (⌊(values.length : ℚ) * tf⌋).toNat) = [] →
        trimmed_mean values tf = values.sum / values.length) := by
  have hlen : values.length ≠ 0 := fun hz =>
    hne (List.length_eq_zero.mp hz)
  have hlenq : ((values.length : ℚ)) ≠ 0 := Nat.cast_ne_zero.mpr hlen
  constructor
  · simp only [trimmed_meanChecked, trimmed_mean]
    split_ifs with hsmall hc htr
    · exact safeDiv_of_ne _ _ hlenq
    · exact safeDiv_of_ne _ _ hlenq
    · exact safeDiv_of_ne _ _
        (Nat.cast_ne_zero.mpr fun hz => htr (List.length_eq_zero.mp hz))
    · exact safeDiv_of_ne _ _ hlenq
  · intro h3 hcpos hempty
    simp only [trimmed_mean]
    rw [if_neg (by omega), if_neg (by omega),
      if_neg (fun hcontra => hcontra hempty),
      List.Perm.sum_eq (List.perm_insertionSort _ values)]

/-- Witness for C10: at `tf = 1` on `[1,2,3]` the remainder is empty and
the function still returns the plain mean, dividing by nothing empty. -/
theorem trimmed_mean_total_witness :
    trimmed_meanChecked [1, 2, 3] 1 = some (trimmed_mean [1, 2, 3] 1)
    ∧ trimmed_mean [1, 2, 3] 1 =
        ([1, 2, 3] : List ℚ).sum / ((List.length [(1 : ℚ), 2, 3]) : ℚ) := by
  refine ⟨(trimmed_mean_total [1, 2, 3] 1 (by simp) (by norm_num) (by norm_num)).1,
    (trimmed_mean_total [1, 2, 3] 1 (by simp) (by norm_num) (by norm_num)).2
      (by simp) (by norm_num) ?_⟩
  norm_num [List.insertionSort, List.orderedInsert]
